import Mathlib

/-!
Shallow embedding of `src/app.py` (Result-Prediction-Dashboard).

The program loads a JSON snapshot mapping ticker symbols to nested analytics
records, flattens each record into a tabular row (`analyze_stock`), builds an
overview table over all snapshot keys, and offers a batch-analysis loop over an
uploaded symbol list with progress reporting.  We model JSON values, Python's
strict `[...]` item access (raising `KeyError`/`TypeError`), Python truthiness,
and the relevant loops.
-/

/-- JSON values as loaded by `json.load`.  Numbers are modelled as rationals. -/
inductive Json where
  | null : Json
  | bool (b : Bool) : Json
  | num (q : ℚ) : Json
  | str (s : String) : Json
  | arr (elems : List Json) : Json
  | obj (fields : List (String × Json)) : Json

/-- Python exceptions that item access can raise: `d[k]` raises `KeyError`
on a dict without the key, and `TypeError` when the value is not a dict
(string/list/int/None subscripted with a string key). -/
inductive PyErr where
  | keyError (k : String) : PyErr
  | typeError : PyErr
deriving DecidableEq, Repr

/-- Python truthiness: `None`, `False`, `0`, `""`, `[]`, `{}` are falsy. -/
def Json.falsy : Json → Bool
  | .null => true
  | .bool b => !b
  | .num q => q == 0
  | .str s => s == ""
  | .arr elems => elems.isEmpty
  | .obj fields => fields.isEmpty

/-- Strict Python subscript `v[k]` with a string key: on a dict, look the key
up (raising `KeyError` when absent); on any non-dict value raise `TypeError`. -/
def Json.getItem : Json → String → Except PyErr Json
  | .obj fields, k =>
    match fields.lookup k with
    | some v => .ok v
    | none => .error (.keyError k)
  | _, _ => .error .typeError

/-- The loaded snapshot: `json.load` of a JSON object, i.e. an association
list from symbol to record (keys unique in an actual JSON object). -/
abbrev Snapshot := List (String × Json)

/-- `data.get(symbol)`: `None` (here `Json.null`) when the key is absent. -/
def Snapshot.get (data : Snapshot) (symbol : String) : Json :=
  (List.lookup symbol data).getD .null

/-- The row built by `analyze_stock` (app.py lines 19-27).  Field values are
arbitrary JSON values, exactly as the Python dict stores whatever the record
holds. -/
structure Row where
  symbol : String
  lastClose : Json
  volume : Json
  rsi : Json
  trend : Json
  nextEarnings : Json
  confidenceScore : Json

/-- The body of the `try:` block of `analyze_stock` (app.py lines 19-27).
Each dict value expression is evaluated in source order with strict
subscripts, e.g. `stock_data['technical']['last_close']`; the first raised
exception aborts the dict construction. -/
def analyzeBody (symbol : String) (stock_data : Json) : Except PyErr Row :=
  (stock_data.getItem "technical").bind fun t1 =>
  (t1.getItem "last_close").bind fun lastClose =>
  (stock_data.getItem "technical").bind fun t2 =>
  (t2.getItem "last_volume").bind fun volume =>
  (stock_data.getItem "technical").bind fun t3 =>
  (t3.getItem "rsi").bind fun rsi =>
  (stock_data.getItem "technical").bind fun t4 =>
  (t4.getItem "trend").bind fun trend =>
  (stock_data.getItem "earnings").bind fun e1 =>
  (e1.getItem "next_earnings_prediction").bind fun nextEarnings =>
  (stock_data.getItem "earnings").bind fun e2 =>
  (e2.getItem "prediction_metadata").bind fun pm =>
  (pm.getItem "confidence_score").bind fun confidenceScore =>
  .ok ⟨symbol, lastClose, volume, rsi, trend, nextEarnings, confidenceScore⟩

/-- `analyze_stock` (app.py lines 14-29): `data.get(symbol)`; return `None`
on a falsy record; otherwise run the `try:` body, mapping any raised
exception to `None` via the bare `except Exception`. -/
def analyze_stock (data : Snapshot) (symbol : String) : Option Row :=
  let stock_data := data.get symbol
  if stock_data.falsy then none
  else
    match analyzeBody symbol stock_data with
    | .ok r => some r
    | .error _ => none

/-- The overview loop (app.py lines 36-40): iterate over `data.items()`,
appending each truthy `analyze_stock(symbol)` result (a built row dict is
always non-empty, hence truthy). -/
def overview (data : Snapshot) : List Row :=
  data.filterMap fun p => analyze_stock data p.1

/-- `stock_df["Symbol"].dropna().unique().tolist()` (app.py line 61): the
Symbol column with missing cells (`NaN`, here `none`), missing entries
dropped, then deduplicated keeping the first occurrence of each value in
order of appearance (pandas `unique`). -/
def uniqueFirst {α : Type} [DecidableEq α] : List α → List α
  | [] => []
  | x :: xs => x :: uniqueFirst (xs.filter fun y => y ≠ x)
termination_by l => l.length
decreasing_by
  simp only [List.length_cons]
  exact Nat.lt_succ_of_le (List.length_filter_le _ _)

/-- The symbol list fed to the batch loop (app.py line 61). -/
def symbolsFromColumn (col : List (Option String)) : List String :=
  uniqueFirst (col.filterMap id)

/-- State threaded through the batch-analysis loop (app.py lines 64-73):
accumulated result rows, the status texts written to `status_text`, and the
fractions passed to `progress_bar.progress`. -/
structure BatchState where
  results : List Row
  statusTexts : List String
  progresses : List ℚ

/-- One pass of `for i, symbol in enumerate(symbols)` (app.py lines 68-73):
write the status text, run `analyze_stock`, append a truthy result, then
report progress `(i + 1) / len(symbols)`. -/
def batchLoop (data : Snapshot) (n : ℕ) : ℕ → List String → BatchState → BatchState
  | _, [], st => st
  | i, symbol :: rest, st =>
    let st1 : BatchState :=
      { st with statusTexts := st.statusTexts ++ [s!"Analyzing {symbol} ({i + 1}/{n})..."] }
    let st2 : BatchState :=
      match analyze_stock data symbol with
      | some r => { st1 with results := st1.results ++ [r] }
      | none => st1
    let st3 : BatchState :=
      { st2 with progresses := st2.progresses ++ [((i : ℚ) + 1) / (n : ℚ)] }
    batchLoop data n (i + 1) rest st3

/-- Everything the batch analysis emits (app.py lines 62-79): the rows, the
status texts, the progress fractions, and the banner messages shown to the
user (`st.success` / `st.warning`). -/
structure BatchOutput where
  results : List Row
  statusTexts : List String
  progresses : List ℚ
  messages : List String

/-- Batch analysis of an uploaded symbol list against the loaded snapshot
(app.py lines 62-79).  Messages: the initial
`"📊 Analyzing {n} stocks..."` success banner, each status text, and the
final `"✅ Analysis complete!"` or `"⚠️ No valid stock data found."`. -/
def batchAnalyze (data : Snapshot) (symbols : List String) : BatchOutput :=
  let n := symbols.length
  let st := batchLoop data n 0 symbols ⟨[], [], []⟩
  { results := st.results
    statusTexts := st.statusTexts
    progresses := st.progresses
    messages :=
      s!"📊 Analyzing {n} stocks..." :: st.statusTexts ++
        [if st.results.isEmpty then "⚠️ No valid stock data found."
         else "✅ Analysis complete!"] }

/-- `change_pct` (app.py lines 207-208): percentage change of the predicted
value over the last historical value, with an explicit guard returning `0`
when the last historical value is `0`. -/
def change_pct (predicted last_historical : ℚ) : ℚ :=
  if last_historical ≠ 0 then (predicted - last_historical) / last_historical * 100
  else 0

/-- A row of `comparison_data` (app.py lines 209-214). -/
structure CompRow where
  metric : String
  lastHistorical : ℚ
  predicted : ℚ
  changePct : ℚ
deriving DecidableEq

/-- The `comparison_data` loop (app.py lines 200-214): for each metric with a
non-null prediction, look its historical series up; when present and
non-empty take the last value of the series and emit a comparison row whose
change percent is `change_pct`. -/
def comparisonData (validPredictions : List (String × ℚ))
    (historical : List (String × List (String × ℚ))) : List CompRow :=
  validPredictions.filterMap fun mp =>
    match List.lookup mp.1 historical with
    | some series =>
      match series.getLast? with
      | some lastPair =>
        some ⟨mp.1, lastPair.2, mp.2, change_pct mp.2 lastPair.2⟩
      | none => none
    | none => none

/-- A complete record for symbol `"AAA"`: full `technical` and `earnings`
sections as in the snapshot schema. -/
def aaaRecord : Json :=
  .obj
    [("technical",
      .obj [("last_close", .num 100), ("last_volume", .num 5000),
            ("rsi", .num 55), ("trend", .str "Bullish")]),
     ("earnings",
      .obj [("next_earnings_prediction", .str "2025-04-15"),
            ("prediction_metadata", .obj [("confidence_score", .num 80)])])]

/-- The row `analyze_stock` builds from `aaaRecord`. -/
def aaaRow : Row :=
  ⟨"AAA", .num 100, .num 5000, .num 55, .str "Bullish", .str "2025-04-15", .num 80⟩

/-- The snapshot of the C3 scenario: `"AAA"` complete, `"BBB"` with a
structurally invalid `technical` section (a string, not an object). -/
def c3Snapshot : Snapshot :=
  [("AAA", aaaRecord), ("BBB", .obj [("technical", .str "not-an-object")])]

/-- A record that is well-formed except that the leaf `technical.rsi` is
absent; everything else `analyze_stock` reads is present. -/
def missingRsiRecord : Json :=
  .obj
    [("technical",
      .obj [("last_close", .num 10), ("last_volume", .num 20),
            ("trend", .str "Bearish")]),
     ("earnings",
      .obj [("next_earnings_prediction", .str "2025-05-01"),
            ("prediction_metadata", .obj [("confidence_score", .num 70)])])]

/-- Does `hay` start with `sub`? -/
def startsWithChars : List Char → List Char → Bool
  | [], _ => true
  | _ :: _, [] => false
  | a :: as, b :: bs => a == b && startsWithChars as bs

/-- Does `sub` occur contiguously inside `hay`? -/
def hasSubChars (hay sub : List Char) : Bool :=
  match hay with
  | [] => sub.isEmpty
  | _ :: rest => startsWithChars sub hay || hasSubChars rest sub

/-- `containsStr m sub`: `sub` occurs as a substring of `m`. -/
def containsStr (m sub : String) : Bool := hasSubChars m.toList sub.toList

/-- Whether a user-facing message mentions skipping at all (the way any
report of a count of skipped symbols would). -/
def mentionsSkip (m : String) : Bool :=
  containsStr m "skip" || containsStr m "Skip" || containsStr m "SKIP"

-- ## Helper lemmas

/-- A value on which a subscript succeeds is a non-empty dict, hence truthy. -/
theorem Json.falsy_false_of_getItem_ok {sd v : Json} {k : String}
    (h : sd.getItem k = Except.ok v) : sd.falsy = false := by
  cases sd with
  | obj fields =>
    cases fields with
    | nil => simp [Json.getItem, List.lookup] at h
    | cons p l => rfl
  | null => simp [Json.getItem] at h
  | bool b => simp [Json.getItem] at h
  | num q => simp [Json.getItem] at h
  | str s => simp [Json.getItem] at h
  | arr elems => simp [Json.getItem] at h

/-- With unique keys, association-list lookup finds exactly the member pair. -/
theorem lookup_eq_of_mem_nodup {l : List (String × Json)} {s : String} {v : Json}
    (hn : (l.map Prod.fst).Nodup) (hm : (s, v) ∈ l) :
    List.lookup s l = some v := by
  induction l with
  | nil => simp at hm
  | cons p rest ih =>
    obtain ⟨k, b⟩ := p
    simp only [List.map_cons, List.nodup_cons] at hn
    rcases List.mem_cons.mp hm with h | h
    · obtain ⟨rfl, rfl⟩ := Prod.mk.injEq .. ▸ h
      simp [List.lookup]
    · have hs : s ∈ rest.map Prod.fst := by
        simpa using List.mem_map_of_mem Prod.fst h
      have hne : (s == k) = false := by
        simp only [beq_eq_false_iff_ne, ne_eq]
        rintro rfl
        exact hn.1 hs
      simp [List.lookup, hne, ih hn.2 h]

/-- Inversion for a successful `Except.bind`. -/
theorem bind_ok {α β : Type} {x : Except PyErr α} {f : α → Except PyErr β} {b : β}
    (h : x.bind f = Except.ok b) : ∃ a, x = Except.ok a ∧ f a = Except.ok b := by
  cases x with
  | ok a => exact ⟨a, rfl, h⟩
  | error e => exact absurd h (by simp [Except.bind])

/-- Any row the `try:` body builds carries the symbol it was called with. -/
theorem analyzeBody_ok_symbol {s : String} {sd : Json} {r : Row}
    (h : analyzeBody s sd = Except.ok r) : r.symbol = s := by
  unfold analyzeBody at h
  obtain ⟨t1, h1, h⟩ := bind_ok h
  obtain ⟨lc, h2, h⟩ := bind_ok h
  obtain ⟨t2, h3, h⟩ := bind_ok h
  obtain ⟨vol, h4, h⟩ := bind_ok h
  obtain ⟨t3, h5, h⟩ := bind_ok h
  obtain ⟨rs, h6, h⟩ := bind_ok h
  obtain ⟨t4, h7, h⟩ := bind_ok h
  obtain ⟨td, h8, h⟩ := bind_ok h
  obtain ⟨e1, h9, h⟩ := bind_ok h
  obtain ⟨nep, h10, h⟩ := bind_ok h
  obtain ⟨e2, h11, h⟩ := bind_ok h
  obtain ⟨pm, h12, h⟩ := bind_ok h
  obtain ⟨cs, h13, h⟩ := bind_ok h
  injection h with h
  subst h
  rfl

/-- Any row `analyze_stock` returns carries the symbol it was called with. -/
theorem analyze_stock_symbol {data : Snapshot} {s : String} {r : Row}
    (h : analyze_stock data s = some r) : r.symbol = s := by
  simp only [analyze_stock] at h
  by_cases hf : (Snapshot.get data s).falsy = true
  · simp [hf] at h
  · simp only [Bool.not_eq_true] at hf
    simp only [hf, Bool.false_eq_true, if_false] at h
    cases hb : analyzeBody s (Snapshot.get data s) with
    | ok r0 =>
      rw [hb] at h
      simp only [Option.some.injEq] at h
      exact h ▸ analyzeBody_ok_symbol hb
    | error e =>
      rw [hb] at h
      exact Option.noConfusion h

/-- When `analyze_stock` rejects a symbol, the overview has no row for it. -/
theorem filter_overview_nil_of_none (data : Snapshot) (s : String)
    (h : analyze_stock data s = none) :
    (overview data).filter (fun r => r.symbol == s) = [] := by
  have hgen : ∀ l : List (String × Json),
      ((l.filterMap fun p => analyze_stock data p.1).filter
        (fun r => r.symbol == s)) = [] := by
    intro l
    induction l with
    | nil => rfl
    | cons a rest ih =>
      rw [List.filterMap_cons]
      cases ha : analyze_stock data a.1 with
      | none => exact ih
      | some r =>
        have hsym : r.symbol = a.1 := analyze_stock_symbol ha
        have hne : (r.symbol == s) = false := by
          simp only [beq_eq_false_iff_ne, ne_eq, hsym]
          rintro rfl
          rw [ha] at h
          exact Option.noConfusion h
        simp [List.filter_cons, hne, ih]
  exact hgen data

/-- When every key of `l` differs from `s`, the rows contributed by `l`
contain none for symbol `s`. -/
theorem filter_contrib_nil (data : Snapshot) (s : String)
    {l : List (String × Json)} (h : ∀ p ∈ l, p.1 ≠ s) :
    ((l.filterMap fun p => analyze_stock data p.1).filter
      (fun r => r.symbol == s)) = [] := by
  induction l with
  | nil => rfl
  | cons a rest ih =>
    rw [List.filterMap_cons]
    have hrest := ih fun p hp => h p (List.mem_cons_of_mem a hp)
    cases ha : analyze_stock data a.1 with
    | none => exact hrest
    | some r =>
      have hsym : r.symbol = a.1 := analyze_stock_symbol ha
      have hne : (r.symbol == s) = false := by
        simp only [beq_eq_false_iff_ne, ne_eq, hsym]
        exact h a (List.mem_cons_self a rest)
      simp [List.filter_cons, hne, hrest]

/-- With unique keys, a symbol whose analysis succeeds contributes exactly
its one row to the overview. -/
theorem filter_overview_eq_singleton (data : Snapshot) {s : String} {row : Row}
    (hrow : analyze_stock data s = some row) :
    ∀ l : List (String × Json), (l.map Prod.fst).Nodup → s ∈ l.map Prod.fst →
      ((l.filterMap fun p => analyze_stock data p.1).filter
        (fun r => r.symbol == s)) = [row] := by
  intro l
  induction l with
  | nil => intro _ hs; simp at hs
  | cons a rest ih =>
    intro hn hs
    simp only [List.map_cons, List.nodup_cons] at hn
    rw [List.filterMap_cons]
    rw [List.map_cons] at hs
    rcases List.mem_cons.mp hs with h | h
    · rw [← h, hrow]
      have hsym : row.symbol = s := analyze_stock_symbol hrow
      have hsnot : s ∉ List.map Prod.fst rest := by rw [h]; exact hn.1
      have htail : ((rest.filterMap fun p => analyze_stock data p.1).filter
          (fun r => r.symbol == s)) = [] := by
        refine filter_contrib_nil data s fun p hp hps => hsnot ?_
        exact hps ▸ List.mem_map_of_mem Prod.fst hp
      simp [List.filter_cons, hsym, htail]
    · have hne : a.1 ≠ s := by
        rintro rfl
        exact hn.1 h
      cases ha : analyze_stock data a.1 with
      | none => exact ih hn.2 h
      | some r =>
        have hsym : r.symbol = a.1 := analyze_stock_symbol ha
        have hbne : (r.symbol == s) = false := by
          simp only [beq_eq_false_iff_ne, ne_eq, hsym]
          exact hne
        simp [List.filter_cons, hbne, ih hn.2 h]


/-- The rows the batch loop accumulates are exactly the successful analyses,
in order. -/
theorem batchLoop_results (data : Snapshot) (n : ℕ) :
    ∀ (syms : List String) (i : ℕ) (st : BatchState),
      (batchLoop data n i syms st).results =
        st.results ++ syms.filterMap (analyze_stock data) := by
  intro syms
  induction syms with
  | nil => intro i st; simp [batchLoop]
  | cons s rest ih =>
    intro i st
    rw [batchLoop, List.filterMap_cons]
    cases hr : analyze_stock data s with
    | none => simp only [hr]; rw [ih]
    | some r => simp only [hr]; rw [ih]; simp

/-- The list of progress fractions over `range (L + 1)`, peeled at the head
and re-indexed from `i + 1`. -/
theorem progress_range_shift (i n L : ℕ) :
    (List.range (L + 1)).map (fun j : ℕ => ((i : ℚ) + (j : ℚ) + 1) / (n : ℚ)) =
      (((i : ℚ) + 1) / (n : ℚ)) :: (List.range L).map
        (fun j : ℕ => (((i + 1 : ℕ) : ℚ) + (j : ℚ) + 1) / (n : ℚ)) := by
  rw [List.range_succ_eq_map, List.map_cons, List.map_map]
  refine congrArg₂ List.cons (by norm_num) ?_
  refine List.map_congr_left fun j hj => ?_
  simp only [Function.comp_apply]
  push_cast
  ring

/-- The progress fractions the batch loop reports, starting from loop
index `i`. -/
theorem batchLoop_progresses (data : Snapshot) (n : ℕ) :
    ∀ (syms : List String) (i : ℕ) (st : BatchState),
      (batchLoop data n i syms st).progresses =
        st.progresses ++ (List.range syms.length).map
          (fun j : ℕ => ((i : ℚ) + (j : ℚ) + 1) / (n : ℚ)) := by
  intro syms
  induction syms with
  | nil => intro i st; simp [batchLoop]
  | cons s rest ih =>
    intro i st
    rw [batchLoop]
    cases hr : analyze_stock data s with
    | none =>
      simp only [hr]
      rw [ih]
      rw [List.length_cons, progress_range_shift]
      simp
    | some r =>
      simp only [hr]
      rw [ih]
      rw [List.length_cons, progress_range_shift]
      simp

/-- `uniqueFirst` preserves membership. -/
theorem mem_uniqueFirst {α : Type} [DecidableEq α] (l : List α) (a : α) :
    a ∈ uniqueFirst l ↔ a ∈ l := by
  induction l using uniqueFirst.induct with
  | case1 => simp [uniqueFirst]
  | case2 x xs ih =>
    rw [uniqueFirst]
    simp only [List.mem_cons, ih, List.mem_filter, decide_eq_true_eq]
    constructor
    · rintro (rfl | ⟨h, _⟩)
      · exact Or.inl rfl
      · exact Or.inr h
    · rintro (rfl | h)
      · exact Or.inl rfl
      · by_cases hx : a = x
        · exact Or.inl hx
        · exact Or.inr ⟨h, hx⟩

/-- `uniqueFirst` produces a list without duplicates. -/
theorem uniqueFirst_nodup {α : Type} [DecidableEq α] (l : List α) :
    (uniqueFirst l).Nodup := by
  induction l using uniqueFirst.induct with
  | case1 => simp [uniqueFirst]
  | case2 x xs ih =>
    rw [uniqueFirst]
    refine List.nodup_cons.mpr ⟨fun hx => ?_, ih⟩
    have hmem := (mem_uniqueFirst _ _).mp hx
    simp [List.mem_filter] at hmem

/-- A symbol not in the analyzed list yields no matching result row. -/
theorem countP_filterMap_symbol_zero (data : Snapshot) (s : String) :
    ∀ {syms : List String}, s ∉ syms →
      (syms.filterMap (analyze_stock data)).countP (fun r => r.symbol == s) = 0 := by
  intro syms
  induction syms with
  | nil => intro _; rfl
  | cons a rest ih =>
    intro hs
    have ha : s ≠ a := fun h => hs (h ▸ List.mem_cons_self a rest)
    have hrest := ih fun h => hs (List.mem_cons_of_mem a h)
    rw [List.filterMap_cons]
    cases hr : analyze_stock data a with
    | none => exact hrest
    | some r =>
      have hsym : r.symbol = a := analyze_stock_symbol hr
      have hne : (r.symbol == s) = false := by
        simp only [beq_eq_false_iff_ne, ne_eq, hsym]
        exact fun h => ha h.symm
      rw [List.countP_cons, hne]
      simpa using hrest

/-- Over a duplicate-free symbol list, each symbol contributes at most one
result row. -/
theorem countP_filterMap_symbol_le_one (data : Snapshot) (s : String)
    {syms : List String} (hn : syms.Nodup) :
    (syms.filterMap (analyze_stock data)).countP (fun r => r.symbol == s) ≤ 1 := by
  induction syms with
  | nil => simp [List.countP_nil]
  | cons a rest ih =>
    have hna := (List.nodup_cons.mp hn).1
    have hnr := (List.nodup_cons.mp hn).2
    rw [List.filterMap_cons]
    cases hr : analyze_stock data a with
    | none => exact ih hnr
    | some r =>
      have hsym : r.symbol = a := analyze_stock_symbol hr
      rw [List.countP_cons]
      by_cases hb : (r.symbol == s) = true
      · have has : a = s := hsym ▸ eq_of_beq hb
        have hz : (rest.filterMap (analyze_stock data)).countP
            (fun r => r.symbol == s) = 0 :=
          countP_filterMap_symbol_zero data s fun hmem => hna (has ▸ hmem)
        simp [hb, hz]
      · have hb0 : (r.symbol == s) = false := by
          simpa using hb
        simpa [hb0] using ih hnr

-- ## Claim theorems

/-- Claim C1: for every symbol in the snapshot whose record has a complete
`technical` section (last_close, last_volume, rsi, trend) and a complete
`earnings` section (next_earnings_prediction and
prediction_metadata.confidence_score), the normalization pass produces
exactly one row for that symbol, every field populated with the
corresponding value from the record. -/
theorem c1_complete_record_normalizes (data : Snapshot) (symbol : String)
    (sd t e pm lc vol rs td nep cs : Json)
    (hn : (data.map Prod.fst).Nodup)
    (hmem : (symbol, sd) ∈ data)
    (ht : sd.getItem "technical" = Except.ok t)
    (hlc : t.getItem "last_close" = Except.ok lc)
    (hvol : t.getItem "last_volume" = Except.ok vol)
    (hrs : t.getItem "rsi" = Except.ok rs)
    (htd : t.getItem "trend" = Except.ok td)
    (he : sd.getItem "earnings" = Except.ok e)
    (hnep : e.getItem "next_earnings_prediction" = Except.ok nep)
    (hpm : e.getItem "prediction_metadata" = Except.ok pm)
    (hcs : pm.getItem "confidence_score" = Except.ok cs) :
    analyze_stock data symbol = some ⟨symbol, lc, vol, rs, td, nep, cs⟩ ∧
    (overview data).filter (fun r => r.symbol == symbol) =
      [⟨symbol, lc, vol, rs, td, nep, cs⟩] := by
  have hget : Snapshot.get data symbol = sd := by
    unfold Snapshot.get
    rw [lookup_eq_of_mem_nodup hn hmem]
    rfl
  have hfalsy : sd.falsy = false := Json.falsy_false_of_getItem_ok ht
  have hbody : analyzeBody symbol sd = Except.ok ⟨symbol, lc, vol, rs, td, nep, cs⟩ := by
    simp only [analyzeBody, ht, hlc, hvol, hrs, htd, he, hnep, hpm, hcs, Except.bind]
  have hstock : analyze_stock data symbol = some ⟨symbol, lc, vol, rs, td, nep, cs⟩ := by
    simp only [analyze_stock, hget, hfalsy, Bool.false_eq_true, if_false, hbody]
  refine ⟨hstock, ?_⟩
  exact filter_overview_eq_singleton data hstock data hn
    (by simpa using List.mem_map_of_mem Prod.fst hmem)

/-- Witness for C1 on the concrete one-symbol snapshot holding the complete
record `aaaRecord`. -/
theorem c1_witness :
    analyze_stock [("AAA", aaaRecord)] "AAA" = some aaaRow ∧
    (overview [("AAA", aaaRecord)]).filter (fun r => r.symbol == "AAA") = [aaaRow] :=
  c1_complete_record_normalizes [("AAA", aaaRecord)] "AAA" aaaRecord
    (.obj [("last_close", .num 100), ("last_volume", .num 5000),
           ("rsi", .num 55), ("trend", .str "Bullish")])
    (.obj [("next_earnings_prediction", .str "2025-04-15"),
           ("prediction_metadata", .obj [("confidence_score", .num 80)])])
    (.obj [("confidence_score", .num 80)])
    (.num 100) (.num 5000) (.num 55) (.str "Bullish") (.str "2025-04-15") (.num 80)
    (by decide) (List.mem_singleton.mpr rfl) rfl rfl rfl rfl rfl rfl rfl rfl rfl

/-- Claim C2 counterexample: `missingRsiRecord` is present and well-formed
except that the single leaf `technical.rsi` is absent, yet the Normalizer
produces NO row for the symbol at all — `analyze_stock` returns `None` and
the overview table is empty, contradicting the claimed per-field "no value"
sentinel with all other fields populated. -/
theorem c2_counterexample :
    analyze_stock [("AAA", missingRsiRecord)] "AAA" = none ∧
    overview [("AAA", missingRsiRecord)] = [] := ⟨rfl, rfl⟩

/-- Claim C2 (amended): a missing leaf field never causes an exception, but
it is not isolated per field either: the `KeyError` raised by the strict
lookup aborts the whole `try:` body, `analyze_stock` returns `None`, and
the symbol's row is dropped entirely (no "no value" sentinel exists). -/
theorem c2_missing_leaf_drops_row (data : Snapshot) (symbol : String) (t : Json)
    (ht : (Snapshot.get data symbol).getItem "technical" = Except.ok t)
    (hrs : t.getItem "rsi" = Except.error (PyErr.keyError "rsi")) :
    analyze_stock data symbol = none := by
  simp only [analyze_stock]
  by_cases hf : (Snapshot.get data symbol).falsy = true
  · simp [hf]
  · simp only [Bool.not_eq_true] at hf
    simp only [hf, Bool.false_eq_true, if_false]
    cases h1 : t.getItem "last_close" with
    | error e1 => simp [analyzeBody, ht, h1, Except.bind]
    | ok lc =>
      cases h2 : t.getItem "last_volume" with
      | error e2 => simp [analyzeBody, ht, h1, h2, Except.bind]
      | ok vol => simp [analyzeBody, ht, h1, h2, hrs, Except.bind]

/-- Witness for the amended C2 on a concrete record missing only
`technical.rsi`. -/
theorem c2_witness :
    (Snapshot.get [("BBB", missingRsiRecord)] "BBB").getItem "technical" =
      Except.ok (.obj [("last_close", .num 10), ("last_volume", .num 20),
                       ("trend", .str "Bearish")]) ∧
    analyze_stock [("BBB", missingRsiRecord)] "BBB" = none :=
  ⟨rfl, c2_missing_leaf_drops_row [("BBB", missingRsiRecord)] "BBB"
    (.obj [("last_close", .num 10), ("last_volume", .num 20),
           ("trend", .str "Bearish")]) rfl rfl⟩

/-- Claim C3: a symbol whose record is structurally invalid (its `technical`
section is a string, not an object) is skipped — it contributes no row —
while well-formed symbols are kept; in particular the snapshot
`{"AAA": complete, "BBB": {"technical": "not-an-object"}}` normalizes to
exactly the one row for `"AAA"`. -/
theorem c3_invalid_record_skipped (data : Snapshot) (symbol : String)
    (sd : Json) (v : String)
    (hn : (data.map Prod.fst).Nodup)
    (hmem : (symbol, sd) ∈ data)
    (ht : sd.getItem "technical" = Except.ok (.str v)) :
    analyze_stock data symbol = none ∧
    (overview data).filter (fun r => r.symbol == symbol) = [] ∧
    overview c3Snapshot = [aaaRow] := by
  have hget : Snapshot.get data symbol = sd := by
    unfold Snapshot.get
    rw [lookup_eq_of_mem_nodup hn hmem]
    rfl
  have hfalsy : sd.falsy = false := Json.falsy_false_of_getItem_ok ht
  have hnone : analyze_stock data symbol = none := by
    simp only [analyze_stock, hget, hfalsy, Bool.false_eq_true, if_false]
    have hstr : (Json.str v).getItem "last_close" = Except.error PyErr.typeError := rfl
    simp [analyzeBody, ht, hstr, Except.bind]
  exact ⟨hnone, filter_overview_nil_of_none data symbol hnone, rfl⟩

/-- Witness for C3 on the concrete two-symbol snapshot of the claim. -/
theorem c3_witness :
    analyze_stock c3Snapshot "BBB" = none ∧
    (overview c3Snapshot).filter (fun r => r.symbol == "BBB") = [] ∧
    overview c3Snapshot = [aaaRow] :=
  c3_invalid_record_skipped c3Snapshot "BBB"
    (.obj [("technical", .str "not-an-object")]) "not-an-object"
    (by decide) (by simp [c3Snapshot]) rfl

/-- Claim C4: for every comparison row (a metric with a non-empty historical
series and a non-null prediction), the change percent is
`(predicted - last_historical) / last_historical * 100` when the last
historical value is nonzero, and exactly `0` when it is zero — never a
division fault. -/
theorem c4_change_pct_guard (preds : List (String × ℚ))
    (hist : List (String × List (String × ℚ))) (row : CompRow)
    (hrow : row ∈ comparisonData preds hist) :
    (row.lastHistorical ≠ 0 →
      row.changePct = (row.predicted - row.lastHistorical) / row.lastHistorical * 100) ∧
    (row.lastHistorical = 0 → row.changePct = 0) := by
  obtain ⟨mp, hmp, hf⟩ := List.mem_filterMap.mp hrow
  cases hl : List.lookup mp.1 hist with
  | none => simp [hl] at hf
  | some series =>
    cases hlast : series.getLast? with
    | none => simp [hl, hlast] at hf
    | some lastPair =>
      simp only [hl, hlast, Option.some.injEq] at hf
      subst hf
      simp only [change_pct]
      constructor
      · intro hne
        rw [if_pos hne]
      · intro heq
        rw [if_neg (by simpa using heq)]

/-- Witness for C4: `last_historical = 0`, `predicted = 50` gives change
percent `0` on the concrete comparison input. -/
theorem c4_witness : change_pct 50 0 = 0 :=
  (c4_change_pct_guard [("Total Revenue", 50)]
    [("Total Revenue", [("2024-12-31", 0)])]
    ⟨"Total Revenue", 0, 50, change_pct 50 0⟩ (by decide)).2 rfl

/-- Claim C5: the symbols of the normalized output table form a subset of
the snapshot's keys, and the table never has more rows than the snapshot
has keys — normalization invents and duplicates no symbols. -/
theorem c5_output_symbols_subset (data : Snapshot) :
    ((overview data).map (fun r => r.symbol)) ⊆ data.map Prod.fst ∧
    (overview data).length ≤ data.length := by
  constructor
  · intro s hs
    obtain ⟨r, hr, hrs⟩ := List.mem_map.mp hs
    obtain ⟨p, hp, hpr⟩ := List.mem_filterMap.mp hr
    have : r.symbol = p.1 := analyze_stock_symbol hpr
    exact hrs ▸ this ▸ List.mem_map_of_mem Prod.fst hp
  · exact List.length_filterMap_le _ _

/-- Witness for C5 on the concrete snapshot of the C3 scenario. -/
theorem c5_witness :
    ((overview c3Snapshot).map (fun r => r.symbol)) ⊆ c3Snapshot.map Prod.fst ∧
    (overview c3Snapshot).length ≤ c3Snapshot.length :=
  c5_output_symbols_subset c3Snapshot

/-- Claim C6 counterexample: for the list `["AAA", "ZZZ"]` where only
`"AAA"` exists in the snapshot, batch analysis does yield exactly one
analyzed row, but the number of skipped symbols is never reported: the
messages shown to the user are exactly the initial count banner, the two
per-symbol status texts and the completion banner, and none of them so much
as mentions skipping. -/
theorem c6_counterexample :
    (batchAnalyze [("AAA", aaaRecord)] ["AAA", "ZZZ"]).results.length = 1 ∧
    (batchAnalyze [("AAA", aaaRecord)] ["AAA", "ZZZ"]).messages =
      ["📊 Analyzing 2 stocks...", "Analyzing AAA (1/2)...",
       "Analyzing ZZZ (2/2)...", "✅ Analysis complete!"] ∧
    ((batchAnalyze [("AAA", aaaRecord)] ["AAA", "ZZZ"]).messages.filter
      mentionsSkip) = [] :=
  ⟨rfl, rfl, rfl⟩

/-- Claim C6 (amended): a symbol absent from the snapshot is skipped without
any batch-level error — `analyze_stock` just returns `None` — and for
`["AAA", "ZZZ"]` with only `"AAA"` present the batch yields exactly the one
analyzed row; but no count of skipped symbols is reported to the user (the
emitted messages never mention skipping). -/
theorem c6_absent_symbol_skipped (data : Snapshot) (s : String)
    (habs : List.lookup s data = none) :
    analyze_stock data s = none ∧
    (batchAnalyze [("AAA", aaaRecord)] ["AAA", "ZZZ"]).results = [aaaRow] ∧
    ((batchAnalyze [("AAA", aaaRecord)] ["AAA", "ZZZ"]).messages.filter
      mentionsSkip) = [] := by
  refine ⟨?_, rfl, rfl⟩
  simp [analyze_stock, Snapshot.get, habs, Json.falsy]

/-- Witness for the amended C6 at the concrete snapshot and symbol list of
the claim. -/
theorem c6_witness :
    analyze_stock [("AAA", aaaRecord)] "ZZZ" = none ∧
    (batchAnalyze [("AAA", aaaRecord)] ["AAA", "ZZZ"]).results = [aaaRow] ∧
    ((batchAnalyze [("AAA", aaaRecord)] ["AAA", "ZZZ"]).messages.filter
      mentionsSkip) = [] :=
  c6_absent_symbol_skipped [("AAA", aaaRecord)] "ZZZ" rfl

/-- Claim C7: over a non-empty symbol list of length `n`, the `i`-th
reported progress value (1-based, counted here with 0-based index) equals
exactly `(i + 1) / n` whether or not the symbol was found, the values are
strictly increasing, and the final value is `1`. -/
theorem c7_progress_fractions (data : Snapshot) (symbols : List String)
    (h : symbols ≠ []) :
    ((batchAnalyze data symbols).progresses).length = symbols.length ∧
    (∀ i, i < symbols.length →
      ((batchAnalyze data symbols).progresses).getD i 0 =
        ((i : ℚ) + 1) / (symbols.length : ℚ)) ∧
    ((batchAnalyze data symbols).progresses).Pairwise (· < ·) ∧
    ((batchAnalyze data symbols).progresses).getD (symbols.length - 1) 0 = 1 := by
  have hn0 : 0 < symbols.length := List.length_pos.mpr h
  have hnq : (0 : ℚ) < (symbols.length : ℚ) := by exact_mod_cast hn0
  have hp : (batchAnalyze data symbols).progresses =
      (List.range symbols.length).map
        (fun j : ℕ => ((j : ℚ) + 1) / (symbols.length : ℚ)) := by
    show (batchLoop data symbols.length 0 symbols ⟨[], [], []⟩).progresses = _
    rw [batchLoop_progresses]
    simp
  have hgetD : ∀ i, i < symbols.length →
      ((batchAnalyze data symbols).progresses).getD i 0 =
        ((i : ℚ) + 1) / (symbols.length : ℚ) := by
    intro i hi
    rw [hp, List.getD_eq_getElem?_getD, List.getElem?_map, List.getElem?_range hi]
    rfl
  refine ⟨?_, hgetD, ?_, ?_⟩
  · rw [hp, List.length_map, List.length_range]
  · rw [hp]
    refine List.Pairwise.map _ (fun a b hab => ?_) (List.pairwise_lt_range _)
    exact (div_lt_div_iff_of_pos_right hnq).mpr (by exact_mod_cast Nat.succ_lt_succ hab)
  · rw [hgetD (symbols.length - 1) (Nat.sub_lt hn0 Nat.one_pos)]
    rw [Nat.cast_sub (Nat.one_le_iff_ne_zero.mpr (Nat.pos_iff_ne_zero.mp hn0))]
    rw [Nat.cast_one, sub_add_cancel]
    exact div_self (ne_of_gt hnq)

/-- Witness for C7 at the concrete two-symbol batch run: the two reported
fractions are 1/2 and 1. -/
theorem c7_witness :
    ((batchAnalyze [("AAA", aaaRecord)] ["AAA", "ZZZ"]).progresses).getD 0 0 = 1 / 2 ∧
    ((batchAnalyze [("AAA", aaaRecord)] ["AAA", "ZZZ"]).progresses).getD 1 0 = 1 := by
  have hc := c7_progress_fractions [("AAA", aaaRecord)] ["AAA", "ZZZ"] (by simp)
  constructor
  · have h0 := hc.2.1 0 (by norm_num)
    rw [h0]
    norm_num
  · exact hc.2.2.2

/-- Claim C8: `analyze_stock` is total — modelled by its `Option` codomain —
and every exception the strict-lookup body raises is caught and mapped to
`None`, while a successful body yields either `None` (falsy record) or
exactly the built row; no exception propagates. -/
theorem c8_analyze_stock_total (data : Snapshot) (symbol : String) :
    (∀ e, analyzeBody symbol (Snapshot.get data symbol) = Except.error e →
      analyze_stock data symbol = none) ∧
    (∀ r, analyzeBody symbol (Snapshot.get data symbol) = Except.ok r →
      analyze_stock data symbol = none ∨ analyze_stock data symbol = some r) := by
  constructor
  · intro e he
    simp only [analyze_stock]
    by_cases hf : (Snapshot.get data symbol).falsy = true
    · simp [hf]
    · simp only [Bool.not_eq_true] at hf
      simp [hf, he]
  · intro r hr
    simp only [analyze_stock]
    by_cases hf : (Snapshot.get data symbol).falsy = true
    · simp [hf]
    · simp only [Bool.not_eq_true] at hf
      simp [hf, hr]

/-- Witness for C8: a structurally broken record is caught (mapped to
`None`), and a complete record yields exactly its row. -/
theorem c8_witness :
    (analyzeBody "BBB" (Snapshot.get c3Snapshot "BBB") =
        Except.error PyErr.typeError ∧
      analyze_stock c3Snapshot "BBB" = none) ∧
    (analyzeBody "AAA" (Snapshot.get c3Snapshot "AAA") = Except.ok aaaRow ∧
      (analyze_stock c3Snapshot "AAA" = none ∨
        analyze_stock c3Snapshot "AAA" = some aaaRow)) :=
  ⟨⟨rfl, (c8_analyze_stock_total c3Snapshot "BBB").1 PyErr.typeError rfl⟩,
   ⟨rfl, (c8_analyze_stock_total c3Snapshot "AAA").2 aaaRow rfl⟩⟩

/-- Claim C9: a symbol present in the snapshot whose record is falsy
(`null`, `{}`, `""`, `0`, ...) is rejected by the early truthiness check:
`analyze_stock` returns `None` before any field lookup, and the overview
table has no row for that symbol. -/
theorem c9_falsy_record_dropped (data : Snapshot) (symbol : String) (v : Json)
    (hn : (data.map Prod.fst).Nodup)
    (hmem : (symbol, v) ∈ data)
    (hf : v.falsy = true) :
    analyze_stock data symbol = none ∧
    (overview data).filter (fun r => r.symbol == symbol) = [] := by
  have hget : Snapshot.get data symbol = v := by
    unfold Snapshot.get
    rw [lookup_eq_of_mem_nodup hn hmem]
    rfl
  have hnone : analyze_stock data symbol = none := by
    simp [analyze_stock, hget, hf]
  exact ⟨hnone, filter_overview_nil_of_none data symbol hnone⟩

/-- Witness for C9 at a snapshot whose single record is the empty object. -/
theorem c9_witness :
    analyze_stock [("EMPTY", Json.obj [])] "EMPTY" = none ∧
    (overview [("EMPTY", Json.obj [])]).filter (fun r => r.symbol == "EMPTY") = [] :=
  c9_falsy_record_dropped [("EMPTY", Json.obj [])] "EMPTY" (Json.obj [])
    (by decide) (List.mem_singleton.mpr rfl) rfl

/-- Claim C10: batch analysis first drops missing cells of the `Symbol`
column and deduplicates it keeping first occurrences, so every distinct
non-missing symbol is analyzed exactly once (it contributes at most one
result row) and the reported total counts distinct symbols, not sheet
rows. -/
theorem c10_distinct_symbols_once (col : List (Option String)) (data : Snapshot)
    (s : String) :
    (symbolsFromColumn col).Nodup ∧
    (s ∈ symbolsFromColumn col ↔ some s ∈ col) ∧
    ((batchAnalyze data (symbolsFromColumn col)).results.countP
      (fun r => r.symbol == s)) ≤ 1 ∧
    (symbolsFromColumn col).length = (col.filterMap id).toFinset.card := by
  have hnd : (symbolsFromColumn col).Nodup := uniqueFirst_nodup _
  have hres : (batchAnalyze data (symbolsFromColumn col)).results =
      (symbolsFromColumn col).filterMap (analyze_stock data) := by
    show (batchLoop data _ 0 _ ⟨[], [], []⟩).results = _
    rw [batchLoop_results]
    rfl
  refine ⟨hnd, ?_, ?_, ?_⟩
  · rw [symbolsFromColumn, mem_uniqueFirst, List.mem_filterMap]
    simp
  · rw [hres]
    exact countP_filterMap_symbol_le_one data s hnd
  · have hset : (symbolsFromColumn col).toFinset = (col.filterMap id).toFinset := by
      ext a
      simp [symbolsFromColumn, mem_uniqueFirst]
    rw [← hset]
    exact (List.toFinset_card_of_nodup hnd).symm

/-- Witness for C10 on a column with one missing cell and one duplicate. -/
theorem c10_witness :
    (symbolsFromColumn [some "AAA", none, some "AAA", some "ZZZ"]).Nodup ∧
    ("AAA" ∈ symbolsFromColumn [some "AAA", none, some "AAA", some "ZZZ"] ↔
      some "AAA" ∈ [some "AAA", none, some "AAA", some "ZZZ"]) ∧
    ((batchAnalyze [("AAA", aaaRecord)]
        (symbolsFromColumn [some "AAA", none, some "AAA", some "ZZZ"])).results.countP
      (fun r => r.symbol == "AAA")) ≤ 1 ∧
    (symbolsFromColumn [some "AAA", none, some "AAA", some "ZZZ"]).length =
      ([some "AAA", none, some "AAA", some "ZZZ"].filterMap id).toFinset.card :=
  c10_distinct_symbols_once [some "AAA", none, some "AAA", some "ZZZ"]
    [("AAA", aaaRecord)] "AAA"
